import Mathlib

/-!
Verification of the grafeo-web browser adapter core.

This file gives a shallow embedding of the TypeScript sources:

* `src/query-utils.ts`  — the query classifier `isMutatingQuery`;
* `src/wasm-init.ts`    — the memoized module initializer `ensureWasmInitialized`;
* `src/persistence.ts`  — the debounced `PersistenceManager`;
* `src/worker-proxy.ts` — the `WorkerProxy` transport;
* `index.ts`            — the `GrafeoDB` lifecycle orchestrator.

Stateful TypeScript classes become explicit state records with step
functions; observable effects (snapshot writes, settled promises, errors
routed to handlers) are returned alongside the next state.  Exceptions are
rendered with `Except`/`Option`.
-/

namespace GrafeoWeb

/-! ### Query classifier (src/query-utils.ts)

The source is a single regex test:

  `/^\s*(INSERT|CREATE|DELETE|REMOVE|SET|MERGE|DROP)\b/i.test(query)`

We embed the regex meaning directly: skip the longest run of ECMAScript
whitespace, then try each alternative keyword case-insensitively, then
require a word boundary. -/

/-- ECMAScript regex whitespace class `\s`: ASCII whitespace plus the
Unicode space separators, the line separators and the byte-order mark. -/
def jsWhitespace (c : Char) : Bool :=
  c = ' ' || c = '\t' || c = '\n' || c = '\r' || c = '\x0b' || c = '\x0c' ||
  c = ' ' || c = ' ' || (' ' ≤ c && c ≤ ' ') ||
  c = ' ' || c = ' ' || c = ' ' || c = ' ' ||
  c = '　' || c = '﻿'

/-- ECMAScript regex word-character class `\w`: ASCII letters, digits and
the underscore. -/
def isWordChar (c : Char) : Bool := c.isAlphanum || c = '_'

/-- Match the pattern characters `k` (a concrete keyword, written in upper
case) against the head of `cs`, folding each input character to upper case
as the `i` flag does for ASCII; return the unconsumed rest on success. -/
def ciMatch : List Char → List Char → Option (List Char)
  | [], cs => some cs
  | _ :: _, [] => none
  | k :: ks, c :: cs => if c.toUpper = k then ciMatch ks cs else none

/-- Word-boundary test `\b` placed right after a keyword: the next input
character, when there is one, is not a word character. -/
def boundaryOk : List Char → Bool
  | [] => true
  | c :: _ => !isWordChar c

/-- The fixed keyword alternatives of the regex. -/
def mutatingKeywords : List String :=
  ["INSERT", "CREATE", "DELETE", "REMOVE", "SET", "MERGE", "DROP"]

/-- One alternative of the regex: keyword `k` matched case-insensitively
followed by a word boundary. -/
def matchKW (k : String) (cs : List Char) : Bool :=
  match ciMatch k.toList cs with
  | some rest => boundaryOk rest
  | none => false

/-- Embeds `isMutatingQuery` from `src/query-utils.ts`: the regex
`^\s*(INSERT|CREATE|DELETE|REMOVE|SET|MERGE|DROP)\b` with the `i` flag,
tested against `query`.  The leading `\s*` is anchored at the start and no
keyword begins with a whitespace character, so the regex matches exactly
when some alternative matches after the longest whitespace run. -/
def isMutatingQuery (query : String) : Bool :=
  mutatingKeywords.any (fun k => matchKW k (query.toList.dropWhile jsWhitespace))

/-- Spec-side rendering for C9: after stripping leading whitespace, the
first keyword of the query — the maximal leading run of word characters,
folded to upper case. -/
def firstKeywordUpper (query : String) : List Char :=
  ((query.toList.dropWhile jsWhitespace).takeWhile isWordChar).map Char.toUpper

/-- Spec-side classifier, following the words of the claim: the first
keyword is a member of the fixed set, compared case-insensitively. -/
def isMutatingQuerySpec (query : String) : Bool :=
  mutatingKeywords.any (fun k => decide (firstKeywordUpper query = k.toList))

lemma word_of_upper (c : Char) (h : isWordChar c.toUpper = true) :
    isWordChar c = true := by
  by_cases hl : c.isLower
  · simp [isWordChar, Char.isAlphanum, Char.isAlpha, hl]
  · have he : c.toUpper = c := by
      simp only [Char.toUpper]
      rw [if_neg]
      intro hc
      apply hl
      simp only [Char.isLower, Char.toNat] at *
      rw [Bool.and_eq_true, decide_eq_true_iff, decide_eq_true_iff]
      refine ⟨?_, ?_⟩
      · show (97 : UInt32).toNat ≤ c.val.toNat
        have h97 : (97 : UInt32).toNat = 97 := rfl
        omega
      · show c.val.toNat ≤ (122 : UInt32).toNat
        have h122 : (122 : UInt32).toNat = 122 := rfl
        omega
    rwa [he] at h

/-- A keyword of word characters matches at the head with a trailing word
boundary exactly when it equals the maximal leading word-character run of
the input, folded to upper case. -/
lemma matchAux_eq_firstWord (k : List Char) (hk : ∀ kc ∈ k, isWordChar kc = true) :
    ∀ cs : List Char,
      (match ciMatch k cs with
        | some rest => boundaryOk rest
        | none => false)
      = decide ((cs.takeWhile isWordChar).map Char.toUpper = k) := by
  induction k with
  | nil =>
    intro cs
    cases cs with
    | nil => simp [ciMatch, boundaryOk]
    | cons c cs =>
      simp only [ciMatch, boundaryOk, List.takeWhile_cons]
      cases hw : isWordChar c <;> simp [hw]
  | cons kc ks ih =>
    have hkc : isWordChar kc = true := hk kc (List.mem_cons_self kc ks)
    have hks : ∀ c ∈ ks, isWordChar c = true :=
      fun c hc => hk c (List.mem_cons_of_mem kc hc)
    intro cs
    cases cs with
    | nil => simp [ciMatch]
    | cons c cs =>
      simp only [ciMatch, List.takeWhile_cons]
      by_cases hu : c.toUpper = kc
      · have hw : isWordChar c = true := word_of_upper c (hu ▸ hkc)
        rw [if_pos hu, hw]
        simp only [if_pos, List.map_cons, hu]
        rw [ih hks cs]
        simp
      · rw [if_neg hu]
        cases hw : isWordChar c
        · simp only [Bool.false_eq_true, if_neg, List.map_nil]
          simp
        · simp only [if_pos, List.map_cons]
          rw [decide_eq_false]
          intro h
          exact hu (List.cons.injEq _ _ _ _ ▸ h).1

/-- String-level wrapper for `matchAux_eq_firstWord`. -/
lemma matchKW_eq_firstWord (k : String) (hk : ∀ kc ∈ k.toList, isWordChar kc = true)
    (cs : List Char) :
    matchKW k cs = decide ((cs.takeWhile isWordChar).map Char.toUpper = k.toList) :=
  matchAux_eq_firstWord k.toList hk cs

/-- C9: the classifier returns true exactly when, after stripping leading
whitespace, the first keyword of the query matches one of INSERT, CREATE,
DELETE, REMOVE, SET, MERGE, DROP case-insensitively at a word boundary.
It is a pure total Lean function: no side effects, no failure mode. -/
theorem c9_isMutatingQuery_spec (query : String) :
    isMutatingQuery query = isMutatingQuerySpec query := by
  unfold isMutatingQuery isMutatingQuerySpec firstKeywordUpper mutatingKeywords
  simp only [List.any_cons, List.any_nil]
  rw [matchKW_eq_firstWord "INSERT" (by decide),
    matchKW_eq_firstWord "CREATE" (by decide),
    matchKW_eq_firstWord "DELETE" (by decide),
    matchKW_eq_firstWord "REMOVE" (by decide),
    matchKW_eq_firstWord "SET" (by decide),
    matchKW_eq_firstWord "MERGE" (by decide),
    matchKW_eq_firstWord "DROP" (by decide)]

/-- C9 witness at a concrete mutating query. -/
theorem c9_isMutatingQuery_spec_witness :
    isMutatingQuery "  insert (:Person)" = isMutatingQuerySpec "  insert (:Person)" :=
  c9_isMutatingQuery_spec "  insert (:Person)"

/-! ### Module initializer (src/wasm-init.ts)

The source is a module-level promise singleton:

  `let initPromise = null;`
  `export function ensureWasmInitialized() {`
  `  if (!initPromise) { initPromise = init().then(() => undefined); }`
  `  return initPromise; }`

Promises are modelled by identifiers (the identifier of the promise created
by the n-th bootstrap is n).  The module state records the memoized promise
and how many times the underlying `init()` bootstrap ran; settlement of the
bootstrap promise is an external event that the module code never observes
(the source installs no rejection handler and never clears `initPromise`),
so it only records the outcome in the world part of the state. -/

structure InitState where
  /-- The memoized promise identifier, `null` before the first call. -/
  initPromise : Option Nat
  /-- How many times the underlying `init()` bootstrap was invoked. -/
  bootCount : Nat
  /-- Promise identifiers observed to fulfil (world knowledge, unread by the code). -/
  resolvedOk : List Nat
  /-- Promise identifiers observed to reject (world knowledge, unread by the code). -/
  resolvedErr : List Nat
  deriving Repr, DecidableEq

/-- The module state at load time: no memoized promise, no bootstrap run. -/
def initState0 : InitState := ⟨none, 0, [], []⟩

/-- Embeds `ensureWasmInitialized`: when a promise is memoized it is
returned unchanged, regardless of how it settled; otherwise `init()` runs
and the fresh promise is memoized and returned. -/
def ensureWasmInitialized (s : InitState) : InitState × Nat :=
  match s.initPromise with
  | some p => (s, p)
  | none =>
    let p := s.bootCount
    ({ s with initPromise := some p, bootCount := s.bootCount + 1 }, p)

/-- The bootstrap promise settles (external event): record the outcome of
the memoized promise; the module code itself does nothing here. -/
def settlePromise (s : InitState) (ok : Bool) : InitState :=
  match s.initPromise with
  | some p =>
    if ok then { s with resolvedOk := p :: s.resolvedOk }
    else { s with resolvedErr := p :: s.resolvedErr }
  | none => s

/-- Events of a run against the module initializer. -/
inductive InitEvent where
  | call
  | settleOk
  | settleRejected
  deriving Repr, DecidableEq

def isCall : InitEvent → Bool
  | .call => true
  | _ => false

/-- One event step; a `call` emits the promise identifier it returned. -/
def initStep : InitState → InitEvent → InitState × List Nat
  | s, .call => let r := ensureWasmInitialized s; (r.1, [r.2])
  | s, .settleOk => (settlePromise s true, [])
  | s, .settleRejected => (settlePromise s false, [])

/-- Run a list of events, collecting the promise identifiers returned by calls. -/
def initRun : InitState → List InitEvent → InitState × List Nat
  | s, [] => (s, [])
  | s, e :: es =>
    let r := initStep s e
    let rest := initRun r.1 es
    (rest.1, r.2 ++ rest.2)

def callCount (evs : List InitEvent) : Nat := (evs.filter isCall).length

lemma settlePromise_fields (s : InitState) (ok : Bool) :
    (settlePromise s ok).initPromise = s.initPromise
    ∧ (settlePromise s ok).bootCount = s.bootCount := by
  unfold settlePromise
  cases hp : s.initPromise <;> cases ok <;> simp [hp]

/-- Once the promise with identifier 0 is memoized and one bootstrap has
run, every later call returns promise 0 and no further bootstrap runs. -/
lemma initRun_memoized (evs : List InitEvent) :
    ∀ s : InitState, s.initPromise = some 0 → s.bootCount = 1 →
      (initRun s evs).2 = List.replicate (callCount evs) 0
      ∧ (initRun s evs).1.initPromise = some 0
      ∧ (initRun s evs).1.bootCount = 1 := by
  induction evs with
  | nil => intro s h1 h2; simp [initRun, callCount, h1, h2]
  | cons e es ih =>
    intro s h1 h2
    cases e with
    | call =>
      have hstep : ensureWasmInitialized s = (s, 0) := by
        unfold ensureWasmInitialized; rw [h1]
      simp only [initRun, initStep, hstep]
      have := ih s h1 h2
      simp [callCount, List.filter, isCall, this.1, this.2.1, this.2.2,
        List.replicate_succ]
    | settleOk =>
      have hf := settlePromise_fields s true
      have := ih (settlePromise s true) (hf.1.trans h1) (hf.2.trans h2)
      simp only [initRun, initStep]
      simp [callCount, List.filter, isCall, this.1, this.2.1, this.2.2]
    | settleRejected =>
      have hf := settlePromise_fields s false
      have := ih (settlePromise s false) (hf.1.trans h1) (hf.2.trans h2)
      simp only [initRun, initStep]
      simp [callCount, List.filter, isCall, this.1, this.2.1, this.2.2]

/-- A run consisting only of calls from a state with a memoized promise
returns that promise every time and leaves the state untouched. -/
lemma initRun_calls_id (n : Nat) (s : InitState) (p : Nat) (h : s.initPromise = some p) :
    initRun s (List.replicate n .call) = (s, List.replicate n p) := by
  induction n with
  | zero => simp [initRun]
  | succ m ihm =>
    have hstep : ensureWasmInitialized s = (s, p) := by
      unfold ensureWasmInitialized; rw [h]
    simp [List.replicate_succ, initRun, initStep, hstep, ihm]

/-- C6: in a run from the fresh module state, every call returns the same
promise identifier 0 — the future memoized by the first call — and the
underlying bootstrap runs exactly once as soon as there is at least one
call (zero times when there is none). -/
theorem c6_ensure_idempotent (evs : List InitEvent) :
    (initRun initState0 evs).2 = List.replicate (callCount evs) 0
    ∧ (initRun initState0 evs).1.bootCount
        = (if callCount evs = 0 then 0 else 1) := by
  induction evs with
  | nil => simp [initRun, callCount, initState0]
  | cons e es ih =>
    cases e with
    | call =>
      have hstep : ensureWasmInitialized initState0
          = (⟨some 0, 1, [], []⟩, 0) := rfl
      simp only [initRun, initStep, hstep]
      have h := initRun_memoized es ⟨some 0, 1, [], []⟩ rfl rfl
      simp [callCount, List.filter, isCall, h.1, h.2.1, h.2.2, List.replicate_succ]
    | settleOk =>
      have hstep : settlePromise initState0 true = initState0 := by
        unfold settlePromise initState0; rfl
      simp only [initRun, initStep, hstep]
      simpa [callCount, List.filter, isCall] using ih
    | settleRejected =>
      have hstep : settlePromise initState0 false = initState0 := by
        unfold settlePromise initState0; rfl
      simp only [initRun, initStep, hstep]
      simpa [callCount, List.filter, isCall] using ih

/-- C2 counterexample: run one call, let its bootstrap promise reject, then
call again.  The second call returns the same memoized (rejected) promise 0
and the bootstrap count stays 1 — no fresh bootstrap is attempted, refuting
the claim that a later call re-attempts the bootstrap after a failure. -/
theorem c2_counterexample :
    (initRun initState0 [.call, .settleRejected, .call]).2 = [0, 0]
    ∧ (initRun initState0 [.call, .settleRejected, .call]).1.bootCount = 1
    ∧ (initRun initState0 [.call, .settleRejected, .call]).1.resolvedErr = [0] := by
  decide

/-- C6 witness: two consecutive calls share promise 0 and boot once. -/
theorem c6_ensure_idempotent_witness :
    (initRun initState0 [.call, .call]).2 = [0, 0]
    ∧ (initRun initState0 [.call, .call]).1.bootCount = 1 :=
  c6_ensure_idempotent [.call, .call]

/-- C2 amended: a failed first attempt is not cached as success — the
memoized promise 0 is recorded rejected, so awaiting callers see the
failure — but it stays cached: after the rejection, any number of further
calls all return the same rejected promise 0 and the bootstrap never
re-runs. -/
theorem c2_failure_cached (n : Nat) :
    (initRun initState0 ([.call, .settleRejected] ++ List.replicate n .call)).2
      = List.replicate (n + 1) 0
    ∧ (initRun initState0 ([.call, .settleRejected] ++ List.replicate n .call)).1.bootCount = 1
    ∧ (initRun initState0
        ([.call, .settleRejected] ++ List.replicate n .call)).1.resolvedErr = [0] := by
  have hstep : ensureWasmInitialized initState0
      = (⟨some 0, 1, [], []⟩, 0) := rfl
  have hsettle : settlePromise ⟨some 0, 1, [], []⟩ false
      = ⟨some 0, 1, [], [0]⟩ := rfl
  simp only [List.cons_append, List.nil_append, initRun, initStep, hstep, hsettle,
    List.append_eq]
  rw [initRun_calls_id n ⟨some 0, 1, [], [0]⟩ 0 rfl]
  simp [List.replicate_succ]

/-- C2 witness at two retry calls after the rejection. -/
theorem c2_failure_cached_witness :
    (initRun initState0 ([.call, .settleRejected] ++ List.replicate 2 .call)).2
      = [0, 0, 0]
    ∧ (initRun initState0 ([.call, .settleRejected] ++ List.replicate 2 .call)).1.bootCount = 1
    ∧ (initRun initState0
        ([.call, .settleRejected] ++ List.replicate 2 .call)).1.resolvedErr = [0] :=
  c2_failure_cached 2

/-! ### Persistence manager (src/persistence.ts)

The mutable fields that drive the debounce logic are `timer` (the armed
debounce timeout, `null` when disarmed) and `dirty`.  Snapshots are opaque
byte arrays.  The combined outcome of running `getSnapshot()` and
`save(snapshot)` is an `Except`: `ok snapshot` when both succeed (a durable
write of that snapshot happened), `error e` when either raises.  Step
results carry the snapshot writes performed, how often the `getSnapshot`
callback was invoked, the errors handed to the injectable `onError`
handler, and the error (if any) raised to the caller of the step. -/

abbrev Snap := List Nat

structure PMState where
  timerArmed : Bool
  dirty : Bool
  deriving Repr, DecidableEq

structure SaveOutcome where
  state : PMState
  writes : List Snap
  getCalls : Nat
  raised : Option String
  deriving Repr, DecidableEq

/-- The dirty-check-and-write shared by the timer callback and `flush`:
when dirty, clear the flag first, then call `getSnapshot` and write.  Any
error is returned uncaught in `raised`. -/
def dirtyCheckWrite (s : PMState) (attempt : Except String Snap) : SaveOutcome :=
  if s.dirty then
    match attempt with
    | .ok snap => ⟨{ s with dirty := false }, [snap], 1, none⟩
    | .error e => ⟨{ s with dirty := false }, [], 1, some e⟩
  else ⟨s, [], 0, none⟩

structure FireResult where
  state : PMState
  writes : List Snap
  getCalls : Nat
  /-- Errors handed to the injectable `onError` handler. -/
  reported : List String
  /-- Error raised to the caller of this step, when there is one. -/
  thrown : Option String
  deriving Repr, DecidableEq

/-- Embeds the `setTimeout` callback of `scheduleSave`: when the armed
timer fires it disarms itself (`this.timer = null`), runs the dirty check
and write, and catches every raised error into `onError`; a disarmed timer
never fires. -/
def fireTimer (s : PMState) (attempt : Except String Snap) : FireResult :=
  if s.timerArmed then
    let r := dirtyCheckWrite { s with timerArmed := false } attempt
    match r.raised with
    | some e => ⟨r.state, r.writes, r.getCalls, [e], none⟩
    | none => ⟨r.state, r.writes, r.getCalls, [], none⟩
  else ⟨s, [], 0, [], none⟩

/-- Embeds `PersistenceManager.flush`: cancel any armed timer first, then
run the dirty check and write; a raised error propagates to the caller. -/
def flush (s : PMState) (attempt : Except String Snap) : FireResult :=
  let r := dirtyCheckWrite { s with timerArmed := false } attempt
  ⟨r.state, r.writes, r.getCalls, [], r.raised⟩

/-- Embeds `PersistenceManager.scheduleSave` up to its timer firing: set
the dirty flag, cancel any previously armed timer and arm a fresh one. -/
def scheduleSave (_ : PMState) : PMState := ⟨true, true⟩

/-- C7: `flush` leaves the timer disarmed and the dirty flag cleared; when
dirty it invokes the snapshot callback exactly once and, when the attempt
succeeds, writes exactly that snapshot; when not dirty it performs no write
and never invokes the callback; and after a flush a timer fire can never
write again. -/
theorem c7_flush_semantics (s : PMState) (attempt : Except String Snap) :
    (flush s attempt).state.timerArmed = false
    ∧ (flush s attempt).state.dirty = false
    ∧ (s.dirty = true → (flush s attempt).getCalls = 1
        ∧ ∀ snap, attempt = .ok snap → (flush s attempt).writes = [snap])
    ∧ (s.dirty = false → (flush s attempt).writes = [] ∧ (flush s attempt).getCalls = 0)
    ∧ (∀ a2 : Except String Snap,
        (fireTimer (flush s attempt).state a2).writes = []
        ∧ (fireTimer (flush s attempt).state a2).getCalls = 0) := by
  obtain ⟨t, d⟩ := s
  cases d <;> cases attempt <;>
    simp [flush, dirtyCheckWrite, fireTimer]

/-- C7 witness: flushing a dirty manager with a successful attempt writes
exactly the produced snapshot. -/
theorem c7_flush_semantics_witness :
    (flush ⟨true, true⟩ (Except.ok ([7] : Snap))).writes = [[7]] :=
  ((c7_flush_semantics ⟨true, true⟩ (Except.ok ([7] : Snap))).2.2.1 rfl).2 [7] rfl

/-- C8: when the armed timer fires on a dirty manager and the snapshot
production or write raises, the error is handed to the injectable handler
and nothing is thrown to any caller; more generally the timer callback
never raises, whatever the attempt outcome. -/
theorem c8_fire_errors_isolated (s : PMState) (e : String)
    (ha : s.timerArmed = true) (hd : s.dirty = true) :
    (fireTimer s (.error e)).thrown = none
    ∧ (fireTimer s (.error e)).reported = [e]
    ∧ ∀ attempt : Except String Snap, (fireTimer s attempt).thrown = none := by
  obtain ⟨t, d⟩ := s
  subst ha; subst hd
  refine ⟨by simp [fireTimer, dirtyCheckWrite], by simp [fireTimer, dirtyCheckWrite], ?_⟩
  intro attempt
  cases attempt <;> simp [fireTimer, dirtyCheckWrite]

/-- C8 witness: concrete dirty armed manager with a failing write. -/
theorem c8_fire_errors_isolated_witness :
    (fireTimer ⟨true, true⟩ (.error "disk full")).thrown = none
    ∧ (fireTimer ⟨true, true⟩ (.error "disk full")).reported = ["disk full"] :=
  ⟨(c8_fire_errors_isolated ⟨true, true⟩ "disk full" rfl rfl).1,
   (c8_fire_errors_isolated ⟨true, true⟩ "disk full" rfl rfl).2.1⟩

/-- Embeds the persistence hook of `GrafeoDB.execute` in direct mode with
persistence configured: a mutating query schedules a save, a read-only
query does not touch the persistence manager. -/
def execPersist (s : PMState) (query : String) : PMState :=
  if isMutatingQuery query then scheduleSave s else s

lemma foldl_execPersist_armed (qs : List String) :
    qs.foldl execPersist ⟨true, true⟩ = ⟨true, true⟩ := by
  induction qs with
  | nil => rfl
  | cons q qs ih =>
    have : execPersist ⟨true, true⟩ q = ⟨true, true⟩ := by
      unfold execPersist scheduleSave
      by_cases h : isMutatingQuery q <;> simp [h]
    simp only [List.foldl_cons, this, ih]

/-- C3: in one debounce window — a run of query executions from an idle
manager followed by the single surviving timer fire — exactly one snapshot
write happens when at least one query was mutating, however many mutating
calls re-armed the timer, and none when every query was read-only. -/
theorem c3_one_write_per_window (qs : List String) (snap : Snap) :
    (fireTimer (qs.foldl execPersist ⟨false, false⟩) (.ok snap)).writes.length
      = if qs.any isMutatingQuery then 1 else 0 := by
  induction qs with
  | nil => simp [fireTimer]
  | cons q qs ih =>
    by_cases h : isMutatingQuery q
    · have h1 : execPersist ⟨false, false⟩ q = ⟨true, true⟩ := by
        unfold execPersist scheduleSave; simp [h]
      simp only [List.foldl_cons, h1, foldl_execPersist_armed, List.any_cons, h]
      simp [fireTimer, dirtyCheckWrite]
    · have h1 : execPersist ⟨false, false⟩ q = ⟨false, false⟩ := by
        unfold execPersist; simp [h]
      have hb : isMutatingQuery q = false := by simpa using h
      simp only [List.foldl_cons, h1, List.any_cons, hb]
      simpa using ih

/-- C3 witness: two mutating calls and one read in a window give one write. -/
theorem c3_one_write_per_window_witness :
    (fireTimer ((["INSERT (:P)", "MATCH (n) RETURN n", "SET n.x = 1"].foldl
        execPersist ⟨false, false⟩)) (.ok [9])).writes.length = 1 :=
  c3_one_write_per_window ["INSERT (:P)", "MATCH (n) RETURN n", "SET n.x = 1"] [9]

/-! ### Transport proxy (src/worker-proxy.ts)

State of a `WorkerProxy`: whether `this.worker` is non-null, the `nextId`
counter, and the pending map (represented by its key set, most recent
first; the resolve/reject callbacks are represented by settlement events
emitted when they fire).  Response payloads are opaque values. -/

abbrev Val := Nat

structure WorkerResponse where
  id : Nat
  result : Option Val
  error : Option String
  deriving Repr, DecidableEq

structure ProxyState where
  /-- Whether `this.worker` is non-null. -/
  worker : Bool
  nextId : Nat
  /-- Ids of currently pending requests. -/
  pending : List Nat
  deriving Repr, DecidableEq

/-- A `WorkerProxy` as constructed: no worker yet, `nextId = 1`, nothing pending. -/
def freshProxy : ProxyState := ⟨false, 1, []⟩

/-- A settlement of one pending request promise. -/
inductive Settled where
  | resolved (id : Nat) (result : Option Val)
  | rejected (id : Nat) (msg : String)
  deriving Repr, DecidableEq

/-- Result of one `send` call. -/
inductive SendResult where
  /-- The returned promise was rejected at once with `Worker not initialized`. -/
  | notInit
  /-- The message `{id, method, args}` was posted and the request is pending. -/
  | posted (id : Nat)
  deriving Repr, DecidableEq

/-- Embeds `WorkerProxy.send`: fail fast when `this.worker` is null,
otherwise allocate `this.nextId++`, record the pending request and post. -/
def send (s : ProxyState) : ProxyState × SendResult :=
  if s.worker then
    (⟨s.worker, s.nextId + 1, s.nextId :: s.pending⟩, .posted s.nextId)
  else (s, .notInit)

/-- Dispatch of one reply, as written in the `onmessage` handler: reject
when `error !== undefined`, resolve with `result` otherwise. -/
def settleOf (resp : WorkerResponse) : Settled :=
  match resp.error with
  | some e => .rejected resp.id e
  | none => .resolved resp.id resp.result

/-- Embeds the `onmessage` handler: ignore a reply whose id has no pending
entry; otherwise remove that entry and settle exactly that request. -/
def onmessage (s : ProxyState) (resp : WorkerResponse) : ProxyState × List Settled :=
  if s.pending.contains resp.id then
    (⟨s.worker, s.nextId, s.pending.erase resp.id⟩, [settleOf resp])
  else (s, [])

/-- Embeds the `onerror` handler: reject every pending request with
`event.message`, falling back to the fixed text `Worker error` when the
message is empty (a falsy string), and clear the pending map.  The handler
does not touch `this.worker`. -/
def onerror (s : ProxyState) (msg : String) : ProxyState × List Settled :=
  (⟨s.worker, s.nextId, []⟩,
   s.pending.map (fun i => .rejected i (if msg = "" then "Worker error" else msg)))

/-- Embeds `WorkerProxy.init` up to the handshake: create the worker,
install the handlers, then issue the `init` request through `send`. -/
def initProxy (s : ProxyState) : ProxyState × SendResult :=
  send ⟨true, s.nextId, s.pending⟩

/-- Embeds `WorkerProxy.close`: issue the `close` request through `send`,
then terminate the worker, null the reference and clear the pending map. -/
def closeProxy (s : ProxyState) : ProxyState × SendResult :=
  let r := send s
  (⟨false, r.1.nextId, []⟩, r.2)

/-- Operations of a run against one proxy instance. -/
inductive ProxyOp where
  | initOp
  | sendOp
  | message (resp : WorkerResponse)
  | workerError (msg : String)
  | closeOp
  deriving Repr, DecidableEq

def allocOf : SendResult → List Nat
  | .posted i => [i]
  | .notInit => []

/-- One step of a proxy run: the next state, the request ids allocated by
`send`, and the settlements fired. -/
def proxyStep (s : ProxyState) (op : ProxyOp) : ProxyState × List Nat × List Settled :=
  match op with
  | .initOp => let r := initProxy s; (r.1, allocOf r.2, [])
  | .sendOp => let r := send s; (r.1, allocOf r.2, [])
  | .message resp => let r := onmessage s resp; (r.1, [], r.2)
  | .workerError msg => let r := onerror s msg; (r.1, [], r.2)
  | .closeOp => let r := closeProxy s; (r.1, allocOf r.2, [])

/-- Run a list of operations, collecting allocated ids and settlements. -/
def proxyRun : ProxyState → List ProxyOp → ProxyState × List Nat × List Settled
  | s, [] => (s, [], [])
  | s, op :: ops =>
    let r := proxyStep s op
    let rest := proxyRun r.1 ops
    (rest.1, r.2.1 ++ rest.2.1, r.2.2 ++ rest.2.2)

/-- Deliver a list of replies through the `onmessage` handler. -/
def deliverAll : ProxyState → List WorkerResponse → ProxyState × List Settled
  | s, [] => (s, [])
  | s, resp :: resps =>
    let r := onmessage s resp
    let rest := deliverAll r.1 resps
    (rest.1, r.2 ++ rest.2)

/-- Every step allocates either nothing or exactly the current `nextId`,
bumping the counter accordingly. -/
lemma proxyStep_alloc (s : ProxyState) (op : ProxyOp) :
    ((proxyStep s op).2.1 = [] ∧ (proxyStep s op).1.nextId = s.nextId)
    ∨ ((proxyStep s op).2.1 = [s.nextId] ∧ (proxyStep s op).1.nextId = s.nextId + 1) := by
  cases op with
  | initOp =>
    right
    simp [proxyStep, initProxy, send, allocOf]
  | sendOp =>
    cases hw : s.worker
    · left; simp [proxyStep, send, hw, allocOf]
    · right; simp [proxyStep, send, hw, allocOf]
  | message resp =>
    left
    unfold proxyStep onmessage
    by_cases h : resp.id ∈ s.pending <;> simp [h]
  | workerError msg => simp [proxyStep, onerror]
  | closeOp =>
    cases hw : s.worker
    · left; simp [proxyStep, closeProxy, send, hw, allocOf]
    · right; simp [proxyStep, closeProxy, send, hw, allocOf]

/-- The ids allocated along a run form the contiguous range starting at the
initial `nextId`, and the counter advances by their number. -/
lemma proxyRun_allocs (ops : List ProxyOp) :
    ∀ s : ProxyState,
      (proxyRun s ops).2.1 = List.range' s.nextId (proxyRun s ops).2.1.length
      ∧ (proxyRun s ops).1.nextId = s.nextId + (proxyRun s ops).2.1.length := by
  induction ops with
  | nil => intro s; simp [proxyRun]
  | cons op ops ih =>
    intro s
    have hstep := proxyStep_alloc s op
    rcases hstep with ⟨ha, hn⟩ | ⟨ha, hn⟩
    · have h := ih (proxyStep s op).1
      simp only [proxyRun, ha, List.nil_append]
      rw [hn] at h
      exact h
    · have h := ih (proxyStep s op).1
      rw [hn] at h
      simp only [proxyRun, ha, List.cons_append, List.nil_append]
      constructor
      · rw [show ∀ x : List Nat,
          (s.nextId :: x).length = x.length + 1 from fun x => rfl]
        rw [show List.range' s.nextId ((proxyRun (proxyStep s op).1 ops).2.1.length + 1)
            = s.nextId :: List.range' (s.nextId + 1)
                (proxyRun (proxyStep s op).1 ops).2.1.length from rfl]
        rw [← h.1]
      · rw [show ∀ x : List Nat,
          (s.nextId :: x).length = x.length + 1 from fun x => rfl]
        rw [h.2]
        omega

lemma pairwise_lt_range' (n a : Nat) : List.Pairwise (· < ·) (List.range' a n) := by
  induction n generalizing a with
  | zero => simp
  | succ m ihm =>
    rw [show List.range' a (m + 1) = a :: List.range' (a + 1) m from rfl]
    refine List.Pairwise.cons ?_ (ihm (a + 1))
    intro b hb
    have := List.mem_range'_1.mp hb
    omega

/-- Delivering distinct replies, all matching pending requests, settles
each request exactly once with the payload of its own reply, in delivery
order. -/
lemma deliverAll_settles (resps : List WorkerResponse) :
    ∀ s : ProxyState, s.pending.Nodup →
      (resps.map WorkerResponse.id).Nodup →
      (∀ r ∈ resps, r.id ∈ s.pending) →
      (deliverAll s resps).2 = resps.map settleOf := by
  induction resps with
  | nil => intro s _ _ _; rfl
  | cons resp resps ih =>
    intro s hnd hrd hmem
    have hin : s.pending.contains resp.id = true := by
      simpa using hmem resp (List.mem_cons_self _ _)
    have hstep : onmessage s resp
        = (⟨s.worker, s.nextId, s.pending.erase resp.id⟩, [settleOf resp]) := by
      unfold onmessage; rw [if_pos hin]
    simp only [deliverAll, hstep, List.map_cons, List.cons_append, List.nil_append]
    congr 1
    rw [List.map_cons] at hrd
    have hrd2 := List.nodup_cons.mp hrd
    apply ih
    · exact hnd.erase resp.id
    · exact hrd2.2
    · intro r hr
      have hid : r.id ≠ resp.id := by
        intro he
        exact hrd2.1 (he ▸ List.mem_map_of_mem WorkerResponse.id hr)
      exact (List.mem_erase_of_ne hid).mpr (hmem r (List.mem_cons_of_mem _ hr))

/-- C5: along any run of one proxy instance the ids allocated by `send`
are exactly the contiguous strictly increasing sequence 1, 2, 3, … — never
reused — and delivering any set of distinct replies to pending requests
settles each pending request exactly once with the payload of its own
reply, rejecting exactly when the reply carries an error, whatever the
delivery order. -/
theorem c5_ids_and_reply_matching (ops : List ProxyOp) (s : ProxyState)
    (resps : List WorkerResponse)
    (hnd : s.pending.Nodup) (hrd : (resps.map WorkerResponse.id).Nodup)
    (hmem : ∀ r ∈ resps, r.id ∈ s.pending) :
    (proxyRun freshProxy ops).2.1 = List.range' 1 (proxyRun freshProxy ops).2.1.length
    ∧ List.Pairwise (· < ·) (proxyRun freshProxy ops).2.1
    ∧ (deliverAll s resps).2 = resps.map settleOf := by
  have hrange := (proxyRun_allocs ops freshProxy).1
  refine ⟨hrange, ?_, deliverAll_settles resps s hnd hrd hmem⟩
  rw [hrange]
  exact pairwise_lt_range' _ _

/-- C5 witness: two outstanding requests answered in reverse order each
resolve with their own payload. -/
theorem c5_ids_and_reply_matching_witness :
    (proxyRun freshProxy [.initOp, .sendOp, .sendOp]).2.1 = [1, 2, 3]
    ∧ (deliverAll ⟨true, 4, [3, 2]⟩
        [⟨3, some 30, none⟩, ⟨2, some 20, none⟩]).2
      = [.resolved 3 (some 30), .resolved 2 (some 20)] := by
  have h := c5_ids_and_reply_matching [.initOp, .sendOp, .sendOp]
    ⟨true, 4, [3, 2]⟩ [⟨3, some 30, none⟩, ⟨2, some 20, none⟩]
    (by decide) (by decide) (by decide)
  refine ⟨?_, ?_⟩
  · have h1 := h.1
    rw [show (proxyRun freshProxy [.initOp, .sendOp, .sendOp]).2.1.length = 3 from rfl] at h1
    exact h1
  · exact h.2.2

/-- C1 counterexample: a proxy is initialized (handshake request 1 answered),
a request is outstanding, then the worker-level error channel fires.  The
pending request is rejected with the fault and the map cleared — but a
`send` issued afterwards is still posted to the dead worker and left
pending, instead of failing with the `Worker not initialized` error,
because the `onerror` handler never clears `this.worker`. -/
theorem c1_counterexample :
    (let s1 := (initProxy freshProxy).1
     let s2 := (onmessage s1 ⟨1, some 0, none⟩).1
     let s3 := (send s2).1
     let r := onerror s3 "Worker crashed"
     r.2 = [.rejected 2 "Worker crashed"]
     ∧ r.1.worker = true
     ∧ (send r.1).2 = SendResult.posted 3
     ∧ (send r.1).2 ≠ SendResult.notInit
     ∧ (send r.1).1.pending = [3]) := by
  decide

/-- C1 amended: a worker-level fault rejects every pending request with
that fault and empties the pending map, but a `send` issued after the
fault does not fail fast: since the worker reference is not cleared, the
request is posted to the dead worker and stays pending. -/
theorem c1_fault_rejects_pending (s : ProxyState) (msg : String)
    (hw : s.worker = true) (hmsg : msg ≠ "") :
    (onerror s msg).2 = s.pending.map (fun i => Settled.rejected i msg)
    ∧ (onerror s msg).1.pending = []
    ∧ (send (onerror s msg).1).2 = SendResult.posted s.nextId
    ∧ (send (onerror s msg).1).1.pending = [s.nextId] := by
  unfold onerror send
  simp [hw, hmsg]

/-- C1 witness: concrete initialized proxy with two pending requests. -/
theorem c1_fault_rejects_pending_witness :
    (onerror ⟨true, 3, [2, 1]⟩ "boom").2
      = [Settled.rejected 2 "boom", Settled.rejected 1 "boom"]
    ∧ (send (onerror ⟨true, 3, [2, 1]⟩ "boom").1).2 = SendResult.posted 3 := by
  have h := c1_fault_rejects_pending ⟨true, 3, [2, 1]⟩ "boom" rfl (by decide)
  exact ⟨h.1, h.2.2.1⟩

/-! ### Lifecycle orchestrator (index.ts, class GrafeoDB)

State: the `closed` flag and which of the nullable fields `wasm`,
`persistence`, `proxy` are non-null, plus the persistence manager state.
Each public method is embedded as written: `assertOpen()` first (throwing
the uniform `Database is closed` error), then the proxy branch when
`this.proxy` is non-null, then the direct-mode body with its persistence
hook.  Observable effects are collected in a list. -/

structure DBState where
  closed : Bool
  /-- Whether `this.wasm` is non-null. -/
  wasmAlive : Bool
  /-- Whether `this.persistence` is non-null. -/
  persistenceOn : Bool
  pm : PMState
  /-- Whether `this.proxy` is non-null. -/
  proxyOn : Bool
  deriving Repr, DecidableEq

inductive DBEffect where
  /-- A call that reached the wasm engine. -/
  | engineCall (name : String)
  /-- A request sent through the worker proxy. -/
  | proxySend (method : String)
  /-- A snapshot written to durable storage. -/
  | persistWrite (snap : Snap)
  /-- The persisted record deleted from durable storage. -/
  | persistDelete
  /-- A storage usage estimate read. -/
  | persistStats
  /-- The wasm engine instance freed. -/
  | engineFree
  /-- The worker terminated. -/
  | workerTerminate
  deriving Repr, DecidableEq

inductive DBValue where
  | rows
  | raw
  | count
  | stats
  | snapshot
  | unit
  | changes (cs : List Nat)
  deriving Repr, DecidableEq

inductive DBOp where
  | execute (q : String)
  | executeRaw (q : String)
  | nodeCount
  | edgeCount
  | storageStats
  | exportSnap
  | importSnap
  | clearDB
  | changesSince (t : Nat)
  deriving Repr, DecidableEq

/-- Embeds `GrafeoDB.assertOpen`: throw `Database is closed` when closed. -/
def assertOpen (s : DBState) : Except String Unit :=
  if s.closed then .error "Database is closed" else .ok ()

/-- Embeds each public query operation of `GrafeoDB`.  On success the
result value, successor state and effects are returned; `assertOpen` runs
first in every method. -/
def callOp (s : DBState) (op : DBOp) : Except String (DBValue × DBState × List DBEffect) :=
  match assertOpen s with
  | .error e => .error e
  | .ok _ =>
    match op with
    | .execute q =>
      if s.proxyOn then .ok (.rows, s, [.proxySend "execute"])
      else
        let s1 := if s.persistenceOn && isMutatingQuery q
          then { s with pm := scheduleSave s.pm } else s
        .ok (.rows, s1, [.engineCall "execute"])
    | .executeRaw q =>
      if s.proxyOn then .ok (.raw, s, [.proxySend "executeRaw"])
      else
        let s1 := if s.persistenceOn && isMutatingQuery q
          then { s with pm := scheduleSave s.pm } else s
        .ok (.raw, s1, [.engineCall "executeRaw"])
    | .nodeCount =>
      if s.proxyOn then .ok (.count, s, [.proxySend "nodeCount"])
      else .ok (.count, s, [.engineCall "nodeCount"])
    | .edgeCount =>
      if s.proxyOn then .ok (.count, s, [.proxySend "edgeCount"])
      else .ok (.count, s, [.engineCall "edgeCount"])
    | .storageStats =>
      if s.proxyOn then .ok (.stats, s, [.proxySend "storageStats"])
      else if s.persistenceOn then .ok (.stats, s, [.persistStats])
      else .ok (.stats, s, [])
    | .exportSnap =>
      if s.proxyOn then .ok (.snapshot, s, [.proxySend "export"])
      else .ok (.snapshot, s, [.engineCall "exportSnapshot"])
    | .importSnap =>
      if s.proxyOn then .ok (.unit, s, [.proxySend "import"])
      else
        let s1 := if s.persistenceOn then { s with pm := scheduleSave s.pm } else s
        .ok (.unit, s1, [.engineCall "importSnapshot"])
    | .clearDB =>
      if s.proxyOn then .ok (.unit, s, [.proxySend "clear"])
      else
        let s1 := { s with wasmAlive := true, pm := ⟨false, false⟩ }
        if s.persistenceOn then
          .ok (.unit, s1, [.engineFree, .engineCall "new", .persistDelete])
        else .ok (.unit, s1, [.engineFree, .engineCall "new"])
    | .changesSince _ => .ok (.changes [], s, [])

structure CloseResult where
  state : DBState
  effects : List DBEffect
  /-- Error raised to the caller of `close`, when there is one. -/
  thrown : Option String
  deriving Repr, DecidableEq

/-- Embeds `GrafeoDB.close`: return at once when already closed; otherwise
set `closed`, then either close the proxy, or flush persistence (whose
raised error would propagate) and free the engine. -/
def closeDB (s : DBState) (flushAttempt : Except String Snap) : CloseResult :=
  if s.closed then ⟨s, [], none⟩
  else
    let s1 := { s with closed := true }
    if s.proxyOn then
      ⟨{ s1 with proxyOn := false }, [.proxySend "close", .workerTerminate], none⟩
    else if s.persistenceOn then
      let r := flush s.pm flushAttempt
      match r.thrown with
      | some e => ⟨{ s1 with pm := r.state }, r.writes.map DBEffect.persistWrite, some e⟩
      | none =>
        let s2 := { s1 with pm := r.state, persistenceOn := false }
        if s.wasmAlive then
          ⟨{ s2 with wasmAlive := false },
            r.writes.map DBEffect.persistWrite ++ [.engineFree], none⟩
        else ⟨s2, r.writes.map DBEffect.persistWrite, none⟩
    else if s.wasmAlive then ⟨{ s1 with wasmAlive := false }, [.engineFree], none⟩
    else ⟨s1, [], none⟩

/-- C4: a closed `GrafeoDB` is permanently closed.  A second `close`
returns unchanged with no effect and nothing raised; every public
operation fails with the uniform `Database is closed` error; a first
`close` from any open state transitions to closed; and no successful
operation ever unsets the flag. -/
theorem c4_close_idempotent_uniform_errors (s : DBState) (hc : s.closed = true) :
    (∀ a : Except String Snap, closeDB s a = ⟨s, [], none⟩)
    ∧ (∀ op : DBOp, callOp s op = .error "Database is closed")
    ∧ (∀ (s0 : DBState) (a : Except String Snap), s0.closed = false →
        ((closeDB s0 a).state).closed = true)
    ∧ (∀ (s0 : DBState) (op : DBOp) (v : DBValue) (s1 : DBState) (eff : List DBEffect),
        callOp s0 op = .ok (v, s1, eff) → s1.closed = s0.closed) := by
  refine ⟨?_, ?_, ?_, ?_⟩
  · intro a
    unfold closeDB
    rw [if_pos hc]
  · intro op
    unfold callOp assertOpen
    rw [if_pos hc]
  · intro s0 a h0
    unfold closeDB
    rw [if_neg (by simp [h0])]
    by_cases hp : s0.proxyOn = true
    · simp [hp]
    · simp only [Bool.not_eq_true] at hp
      by_cases hpe : s0.persistenceOn = true
      · simp only [hp, hpe, if_true, if_false, Bool.false_eq_true]
        cases hth : (flush s0.pm a).thrown <;> by_cases hw : s0.wasmAlive = true <;>
          simp [hth, hw]
      · simp only [Bool.not_eq_true] at hpe
        by_cases hw : s0.wasmAlive = true <;> simp [hp, hpe, hw]
  · intro s0 op v s1 eff h
    unfold callOp assertOpen at h
    by_cases h0 : s0.closed = true
    · rw [if_pos h0] at h
      exact absurd h (by simp)
    · simp only [Bool.not_eq_true] at h0
      rw [if_neg (by simp [h0])] at h
      cases op <;> simp only at h <;>
        (try split at h) <;> (try split at h) <;>
        · injection h with h2
          injection h2 with _ h3
          injection h3 with h4 _
          subst h4
          rfl

/-- C4 witness: a closed direct-mode instance. -/
theorem c4_close_idempotent_uniform_errors_witness :
    closeDB ⟨true, false, false, ⟨false, false⟩, false⟩ (Except.ok [1])
      = ⟨⟨true, false, false, ⟨false, false⟩, false⟩, [], none⟩
    ∧ callOp ⟨true, false, false, ⟨false, false⟩, false⟩ .nodeCount
      = .error "Database is closed" := by
  have h := c4_close_idempotent_uniform_errors
    ⟨true, false, false, ⟨false, false⟩, false⟩ rfl
  exact ⟨h.1 (Except.ok [1]), h.2.1 .nodeCount⟩

/-- C10: on any open instance, `changesSince` succeeds and resolves to the
empty change list, with no engine call and no state change, whatever
timestamp is passed and whatever was executed before. -/
theorem c10_changesSince_empty (s : DBState) (t : Nat) (ho : s.closed = false) :
    callOp s (.changesSince t) = .ok (.changes [], s, []) := by
  unfold callOp assertOpen
  rw [if_neg (by simp [ho])]

/-- C10 witness: an open instance with a dirty persistence manager after
mutations. -/
theorem c10_changesSince_empty_witness :
    callOp ⟨false, true, true, ⟨true, true⟩, false⟩ (.changesSince 12345)
      = .ok (.changes [], ⟨false, true, true, ⟨true, true⟩, false⟩, []) :=
  c10_changesSince_empty ⟨false, true, true, ⟨true, true⟩, false⟩ 12345 rfl

end GrafeoWeb
